import Mathlib

/-!
Verification development for the FinovatePay repository.

The definitions below are shallow embeddings of the program's data model and
operations:

* `FinovatePay.Escrow*` — `contracts/EscrowContract.sol` (state machine,
  fee arithmetic, dispute voting, fund release).  Addresses and `bytes32`
  invoice ids are modelled as `Nat`; the `escrows` mapping is a total
  function defaulting to the all-zero struct, exactly as a Solidity
  mapping behaves, and `delete` writes the zero struct back.  ERC20/native
  value transfers performed by an operation are returned as an explicit
  `List Transfer`; NFT collateral moves are a separate asset class and are
  not part of the value-transfer lists.
* `FinovatePay.Recovery` — `backend/services/recoveryService.js`
  (retry queue, exponential backoff, dead-letter promotion).
* `FinovatePay.Reconciliation` — the reconciliation run loop of
  `recoveryService.js` together with the `reconciliation_logs` CHECK
  constraint from the SQL migration.
* `FinovatePay.InvoiceId` — the UUID → bytes32 encoding helpers
  (`uuidToBytes32` built on ethers v6 `zeroPadValue`).
-/

namespace FinovatePay

/-- Escrow status enum of `EscrowContract.sol`. -/
inductive EscrowStatus where
  | Created
  | Funded
  | Disputed
  | Released
  | Expired
deriving DecidableEq, Repr

/-- The `Escrow` struct of `EscrowContract.sol`.  Addresses are `Nat`
(`0` playing the role of `address(0)`). -/
structure Escrow where
  seller : Nat
  buyer : Nat
  amount : Nat
  token : Nat
  status : EscrowStatus
  payee : Nat
  sellerConfirmed : Bool
  buyerConfirmed : Bool
  disputeRaised : Bool
  disputeResolver : Nat
  createdAt : Nat
  expiresAt : Nat
  rwaNftContract : Nat
  rwaTokenId : Nat
  feeAmount : Nat
  discountRate : Nat
  discountDeadline : Nat
deriving DecidableEq, Repr

/-- The default (all-zero) escrow struct a Solidity mapping returns for an
absent key; `delete escrows[id]` resets the slot to this value. -/
def zeroEscrow : Escrow :=
  { seller := 0, buyer := 0, amount := 0, token := 0, status := .Created,
    payee := 0, sellerConfirmed := false, buyerConfirmed := false,
    disputeRaised := false, disputeResolver := 0, createdAt := 0,
    expiresAt := 0, rwaNftContract := 0, rwaTokenId := 0, feeAmount := 0,
    discountRate := 0, discountDeadline := 0 }

/-- The `DisputeVoting` struct of `EscrowContract.sol`. -/
structure DisputeVoting where
  snapshotArbitratorCount : Nat
  votesForBuyer : Nat
  votesForSeller : Nat
  resolved : Bool
deriving DecidableEq, Repr

/-- Default (all-zero) voting struct for an absent mapping key. -/
def zeroVoting : DisputeVoting :=
  { snapshotArbitratorCount := 0, votesForBuyer := 0, votesForSeller := 0,
    resolved := false }

/-- Contract storage of `EscrowContract.sol` relevant to the claims:
the `escrows`, `disputeVotings` and `hasVoted` mappings plus the admin
configuration slots. -/
structure ContractState where
  escrows : Nat → Escrow
  disputeVotings : Nat → DisputeVoting
  hasVoted : Nat → Nat → Bool
  admin : Nat
  treasury : Nat
  feePercentage : Nat
  quorumPercentage : Nat
  minimumEscrowAmount : Nat

/-- Storage right after the constructor ran with `deployer` as
`msg.sender`: `treasury = admin`, `feePercentage = 50`,
`quorumPercentage = 51`, `minimumEscrowAmount = (10000 + 50 - 1) / 50`. -/
def initialState (deployer : Nat) : ContractState :=
  { escrows := fun _ => zeroEscrow,
    disputeVotings := fun _ => zeroVoting,
    hasVoted := fun _ _ => false,
    admin := deployer,
    treasury := deployer,
    feePercentage := 50,
    quorumPercentage := 51,
    minimumEscrowAmount := (10000 + 50 - 1) / 50 }

/-- A single ERC20/native value transfer performed by the contract
(`_payout` / `safeTransfer`): recipient and amount. -/
structure Transfer where
  recipient : Nat
  amount : Nat
deriving DecidableEq, Repr

/-- `setTreasury` (admin only, nonzero address). -/
def setTreasury (sender t : Nat) (s : ContractState) : Option ContractState :=
  if sender = s.admin ∧ t ≠ 0 then some { s with treasury := t } else none

/-- `setFeePercentage`: fee capped at 1000 basis points; recomputes
`minimumEscrowAmount = (10000 + fee - 1) / fee` when the fee is positive,
else `1`. -/
def setFeePercentage (sender f : Nat) (s : ContractState) : Option ContractState :=
  if sender = s.admin ∧ f ≤ 1000 then
    some { s with feePercentage := f,
                  minimumEscrowAmount := if 0 < f then (10000 + f - 1) / f else 1 }
  else none

/-- `setMinimumEscrowAmount`: requires positivity and that the new minimum
is at least the fee-derived calculated minimum. -/
def setMinimumEscrowAmount (sender m : Nat) (s : ContractState) : Option ContractState :=
  if sender = s.admin ∧ 0 < m ∧
      (if 0 < s.feePercentage then (10000 + s.feePercentage - 1) / s.feePercentage else 1) ≤ m then
    some { s with minimumEscrowAmount := m }
  else none

/-- `updateQuorumPercentage`: requires `0 < pct ≤ 100`. -/
def updateQuorumPercentage (sender p : Nat) (s : ContractState) : Option ContractState :=
  if sender = s.admin ∧ 0 < p ∧ p ≤ 100 then some { s with quorumPercentage := p } else none

/-- `createEscrow`: admin only; rejects an existing escrow
(`seller ≠ address(0)`), an amount below `minimumEscrowAmount`, and a zero
computed fee `amount * feePercentage / 10000`.  Writes a fresh `Escrow`
with `discountRate = 0` and `discountDeadline = 0`. -/
def createEscrow (sender now invoiceId seller buyer amount token duration
    rwaNftContract rwaTokenId : Nat) (s : ContractState) : Option ContractState :=
  if sender = s.admin ∧ (s.escrows invoiceId).seller = 0 ∧
      s.minimumEscrowAmount ≤ amount ∧ 0 < amount * s.feePercentage / 10000 then
    let newEscrow : Escrow :=
      { seller := seller, buyer := buyer, amount := amount, token := token,
        status := .Created, payee := seller, sellerConfirmed := false,
        buyerConfirmed := false, disputeRaised := false, disputeResolver := 0,
        createdAt := now, expiresAt := now + duration,
        rwaNftContract := rwaNftContract, rwaTokenId := rwaTokenId,
        feeAmount := amount * s.feePercentage / 10000,
        discountRate := 0, discountDeadline := 0 }
    some { s with escrows := Function.update s.escrows invoiceId newEscrow }
  else none

/-- `_getPayableAmount`: discounted payable while an active discount
(`discountRate > 0` and `now ≤ discountDeadline`) applies, otherwise the
full amount. -/
def getPayableAmount (now : Nat) (e : Escrow) : Nat :=
  if 0 < e.discountRate ∧ now ≤ e.discountDeadline then
    e.amount - e.amount * e.discountRate / 10000
  else e.amount

/-- `deposit`: buyer only, not yet paid, status `Created`, not expired;
for the native token (`token = 0`) `msg.value` must equal the payable
amount (for ERC20 the pull-transfer is assumed to succeed); records the
payable as the authoritative amount and moves to `Funded`. -/
def deposit (sender now msgValue invoiceId : Nat) (s : ContractState) : Option ContractState :=
  let e := s.escrows invoiceId
  if sender = e.buyer ∧ ¬e.buyerConfirmed ∧ e.status = .Created ∧ now ≤ e.expiresAt then
    let payable := getPayableAmount now e
    if e.token = 0 → msgValue = payable then
      let e1 := { e with amount := payable, buyerConfirmed := true, status := EscrowStatus.Funded }
      some { s with escrows := Function.update s.escrows invoiceId e1 }
    else none
  else none

/-- `_releaseFunds`: runs `IERC20(escrow.token).safeTransfer(seller,
amount)` unconditionally.  For an ERC20 escrow (`token ≠ 0`, a
well-behaved token) this transfers the full stored `amount` to the
seller; for a native escrow (`token = address(0)`) SafeERC20's call to
the codeless zero address deterministically reverts, failing the whole
transaction.  No storage update is performed by this function. -/
def releaseFunds (e : Escrow) : Option (List Transfer) :=
  if e.token = 0 then none
  else some [{ recipient := e.seller, amount := e.amount }]

/-- `confirmRelease`: caller must be a party; status must be `Funded`;
if past the deadline the status is first set to `Expired`; the caller's
confirmation flag is set; when both flags are set, `_releaseFunds` runs
(reverting the whole call, and with it the flag update, for a native
escrow).  Returns the updated storage and the value transfers
performed. -/
def confirmRelease (sender now invoiceId : Nat) (s : ContractState) :
    Option (ContractState × List Transfer) :=
  let e := s.escrows invoiceId
  if sender = e.seller ∨ sender = e.buyer then
    if e.status = .Funded then
      let e1 := if e.expiresAt < now ∧ e.status ≠ .Disputed then
        { e with status := .Expired } else e
      let e2 := if sender = e1.seller then { e1 with sellerConfirmed := true }
        else { e1 with buyerConfirmed := true }
      let s1 := { s with escrows := Function.update s.escrows invoiceId e2 }
      if e2.sellerConfirmed ∧ e2.buyerConfirmed then
        (releaseFunds e2).map (fun ts => (s1, ts))
      else some (s1, [])
    else none
  else none

/-- `reclaimExpiredFunds`: buyer only; status `Funded` or `Expired`; past
the deadline; marks `Expired` and returns the funds to the buyer. -/
def reclaimExpiredFunds (sender now invoiceId : Nat) (s : ContractState) :
    Option (ContractState × List Transfer) :=
  let e := s.escrows invoiceId
  if sender = e.buyer ∧ (e.status = .Funded ∨ e.status = .Expired) ∧ e.expiresAt < now then
    let e1 := { e with status := EscrowStatus.Expired }
    some ({ s with escrows := Function.update s.escrows invoiceId e1 },
      [{ recipient := e.buyer, amount := e.amount }])
  else none

/-- `raiseDispute`: a party, status `Funded`, no prior dispute, at least
one registered arbitrator; moves to `Disputed` and snapshots the
arbitrator count into a fresh `DisputeVoting`. -/
def raiseDispute (sender invoiceId arbitratorCount : Nat) (s : ContractState) :
    Option ContractState :=
  let e := s.escrows invoiceId
  if (sender = e.seller ∨ sender = e.buyer) ∧ e.status = .Funded ∧
      ¬e.disputeRaised ∧ 0 < arbitratorCount then
    let e1 := { e with disputeRaised := true, status := EscrowStatus.Disputed }
    let v1 : DisputeVoting :=
      { snapshotArbitratorCount := arbitratorCount, votesForBuyer := 0,
        votesForSeller := 0, resolved := false }
    some { s with
      escrows := Function.update s.escrows invoiceId e1,
      disputeVotings := Function.update s.disputeVotings invoiceId v1 }
  else none

/-- `_resolveEscrow`: requires status `Disputed`; records the resolver and
`Released`, then deletes the escrow slot (net storage effect: the zero
struct); pays the fee to the treasury first when `feeAmount > 0`, then the
remainder (`amount - feeAmount`, which reverts on underflow) to the winner
(seller iff `sellerWins`). -/
def resolveEscrow (sender invoiceId : Nat) (sellerWins : Bool) (s : ContractState) :
    Option (ContractState × List Transfer) :=
  let e := s.escrows invoiceId
  if e.status = .Disputed then
    let s1 := { s with escrows := Function.update s.escrows invoiceId zeroEscrow }
    let winner := if sellerWins then e.seller else e.buyer
    if 0 < e.feeAmount then
      if e.feeAmount ≤ e.amount then
        let feeTransfer : Transfer := { recipient := s.treasury, amount := e.feeAmount }
        let winnerTransfer : Transfer := { recipient := winner, amount := e.amount - e.feeAmount }
        some (s1, [feeTransfer, winnerTransfer])
      else none
    else
      let winnerTransfer : Transfer := { recipient := winner, amount := e.amount }
      some (s1, [winnerTransfer])
  else none

/-- `resolveDispute`: admin only; requires a raised dispute with status
`Disputed`; delegates to `_resolveEscrow`. -/
def resolveDispute (sender invoiceId : Nat) (sellerWins : Bool) (s : ContractState) :
    Option (ContractState × List Transfer) :=
  let e := s.escrows invoiceId
  if sender = s.admin ∧ e.disputeRaised ∧ e.status = .Disputed then
    resolveEscrow sender invoiceId sellerWins s
  else none

/-- Quorum computation of `_checkAndResolveVoting`:
`snapshot * quorumPercentage / 100` (integer division), bumped to `1` when
the division yields `0`. -/
def quorumRequired (snapshot pct : Nat) : Nat :=
  let q := snapshot * pct / 100
  if q = 0 then 1 else q

/-- `_checkAndResolveVoting`: if unresolved and the total vote count has
reached `quorumRequired`, mark resolved, resolve the escrow with
`sellerWins = votesForSeller > votesForBuyer` and report the outcome. -/
def checkAndResolveVoting (sender invoiceId : Nat) (s : ContractState) :
    Option (ContractState × List Transfer × Option Bool) :=
  let v := s.disputeVotings invoiceId
  if v.resolved then some (s, [], none)
  else
    let q := quorumRequired v.snapshotArbitratorCount s.quorumPercentage
    if q ≤ v.votesForBuyer + v.votesForSeller then
      let sellerWins : Bool := v.votesForBuyer < v.votesForSeller
      let v1 := { v with resolved := true }
      let s1 := { s with disputeVotings := Function.update s.disputeVotings invoiceId v1 }
      (resolveEscrow sender invoiceId sellerWins s1).map
        (fun r => (r.1, r.2, some sellerWins))
    else some (s, [], none)

/-- The `ArbitratorVoted(invoiceId, arbitrator, voteForBuyer)` event. -/
structure ArbitratorVotedEvent where
  invoiceId : Nat
  arbitrator : Nat
  voteForBuyer : Bool
deriving DecidableEq, Repr

/-- `voteOnDispute`: registered arbitrator only; status `Disputed`;
voting unresolved; caller has not voted; the snapshot shrinks to the live
arbitrator count when the latter is smaller; the tally for the chosen side
is incremented; the `ArbitratorVoted` event is emitted with `!voteForBuyer`
as its vote flag; finally `_checkAndResolveVoting` runs.  Returns the new
storage, the emitted event, the value transfers, and `some sellerWins`
when the vote resolved the dispute. -/
def voteOnDispute (sender : Nat) (isArbitrator : Bool) (liveArbitratorCount invoiceId : Nat)
    (voteForBuyer : Bool) (s : ContractState) :
    Option (ContractState × ArbitratorVotedEvent × List Transfer × Option Bool) :=
  if isArbitrator then
    let e := s.escrows invoiceId
    if e.status = .Disputed then
      let v := s.disputeVotings invoiceId
      if ¬v.resolved ∧ ¬s.hasVoted invoiceId sender then
        let v1 := if liveArbitratorCount < v.snapshotArbitratorCount then
          { v with snapshotArbitratorCount := liveArbitratorCount } else v
        let v2 := if voteForBuyer then { v1 with votesForBuyer := v1.votesForBuyer + 1 }
          else { v1 with votesForSeller := v1.votesForSeller + 1 }
        let hv := fun i a => if i = invoiceId ∧ a = sender then true else s.hasVoted i a
        let s1 := { s with hasVoted := hv,
                           disputeVotings := Function.update s.disputeVotings invoiceId v2 }
        let ev : ArbitratorVotedEvent :=
          { invoiceId := invoiceId, arbitrator := sender, voteForBuyer := !voteForBuyer }
        (checkAndResolveVoting sender invoiceId s1).map
          (fun r => (r.1, ev, r.2.1, r.2.2))
      else none
    else none
  else none

/-- `safeEscape`: admin only; status `Disputed`; voting unresolved; only
when the live arbitrator count is below the quorum computed from the
(possibly shrunk) snapshot; marks resolved and resolves the escrow. -/
def safeEscape (sender liveArbitratorCount invoiceId : Nat) (sellerWins : Bool)
    (s : ContractState) : Option (ContractState × List Transfer) :=
  let e := s.escrows invoiceId
  if sender = s.admin ∧ e.status = .Disputed then
    let v := s.disputeVotings invoiceId
    if ¬v.resolved ∧ liveArbitratorCount < v.snapshotArbitratorCount * s.quorumPercentage / 100 then
      let v1 := { v with resolved := true }
      let s1 := { s with disputeVotings := Function.update s.disputeVotings invoiceId v1 }
      resolveEscrow sender invoiceId sellerWins s1
    else none
  else none

/-- One external call to the contract, with its environment inputs
(`now` for `block.timestamp`, live arbitrator counts read from the
registry, `msg.value`, the caller's arbitrator status). -/
inductive Op where
  | setTreasury (sender t : Nat)
  | setFeePercentage (sender f : Nat)
  | setMinimumEscrowAmount (sender m : Nat)
  | updateQuorumPercentage (sender p : Nat)
  | createEscrow (sender now invoiceId seller buyer amount token duration nft tokenId : Nat)
  | deposit (sender now msgValue invoiceId : Nat)
  | confirmRelease (sender now invoiceId : Nat)
  | reclaimExpiredFunds (sender now invoiceId : Nat)
  | raiseDispute (sender invoiceId arbitratorCount : Nat)
  | resolveDispute (sender invoiceId : Nat) (sellerWins : Bool)
  | voteOnDispute (sender : Nat) (isArbitrator : Bool) (liveCount invoiceId : Nat) (voteForBuyer : Bool)
  | safeEscape (sender liveCount invoiceId : Nat) (sellerWins : Bool)

/-- Storage effect of one external call (a `none` result is a revert). -/
def step (op : Op) (s : ContractState) : Option ContractState :=
  match op with
  | .setTreasury sender t => setTreasury sender t s
  | .setFeePercentage sender f => setFeePercentage sender f s
  | .setMinimumEscrowAmount sender m => setMinimumEscrowAmount sender m s
  | .updateQuorumPercentage sender p => updateQuorumPercentage sender p s
  | .createEscrow sender now id seller buyer amount token duration nft tokenId =>
      createEscrow sender now id seller buyer amount token duration nft tokenId s
  | .deposit sender now msgValue id => deposit sender now msgValue id s
  | .confirmRelease sender now id => (confirmRelease sender now id s).map Prod.fst
  | .reclaimExpiredFunds sender now id => (reclaimExpiredFunds sender now id s).map Prod.fst
  | .raiseDispute sender id cnt => raiseDispute sender id cnt s
  | .resolveDispute sender id w => (resolveDispute sender id w s).map Prod.fst
  | .voteOnDispute sender isArb live id vb => (voteOnDispute sender isArb live id vb s).map Prod.fst
  | .safeEscape sender live id w => (safeEscape sender live id w s).map Prod.fst

/-- Reflexive-transitive closure of `step`: every contract state reachable
from `s` by a sequence of successful external calls. -/
inductive ReachableFrom : ContractState → ContractState → Prop where
  | refl (s : ContractState) : ReachableFrom s s
  | tail {s t u : ContractState} (op : Op) :
      ReachableFrom s t → step op t = some u → ReachableFrom s u

/-- States reachable from some freshly deployed contract. -/
def Reachable (s : ContractState) : Prop :=
  ∃ deployer s0, s0 = initialState deployer ∧ ReachableFrom s0 s

namespace Recovery

/-- `operation_data` payload relevant to the retry/DLQ flow of
`recoveryService.js`. -/
structure OperationData where
  operationType : String
  stepsCompleted : List String
deriving DecidableEq, Repr

/-- `shouldCompensate` of `recoveryService.js`. -/
def shouldCompensate (od : OperationData) : Bool :=
  (od.operationType == "ESCROW_RELEASE" && od.stepsCompleted.contains "BLOCKCHAIN_TX")
  || (od.operationType == "FINANCING_PIPELINE" && od.stepsCompleted.contains "KATANA_LIQUIDITY")

/-- A `transaction_recovery_queue` row (relevant columns; `max_retries`
defaults to 5 per the migration).  Timestamps are in milliseconds. -/
structure RecoveryRow where
  correlationId : Nat
  operationType : String
  operationData : OperationData
  retryCount : Nat
  maxRetries : Nat
  nextRetryAt : Nat
  lastError : Option String
  status : String
deriving DecidableEq, Repr

/-- A `dead_letter_queue` row (relevant columns). -/
structure DlqRow where
  correlationId : Nat
  operationType : String
  operationData : OperationData
  failureReason : String
  retryCount : Nat
  lastError : Option String
  requiresCompensation : Bool
  compensationStatus : Option String
deriving DecidableEq, Repr

/-- Store state touched by the retry flow: the recovery queue, the DLQ
and the `current_state` column of each saga keyed by correlation id. -/
structure RecoveryState where
  queue : List RecoveryRow
  dlq : List DlqRow
  sagaState : Nat → String

/-- `Math.min(Math.pow(2, retryCount), 60)` of `addToRecoveryQueue`. -/
def backoffMinutes (retryCount : Nat) : Nat := min (2 ^ retryCount) 60

/-- `next_retry_at = Date.now() + backoffMinutes * 60 * 1000`. -/
def nextRetryTime (now retryCount : Nat) : Nat :=
  now + backoffMinutes retryCount * 60 * 1000

/-- `addToRecoveryQueue`: upsert keyed on `correlation_id`
(`ON CONFLICT (correlation_id) DO UPDATE`): an existing row gets the new
`retry_count`, `next_retry_at`, `last_error` and status `PENDING`;
otherwise a fresh row is inserted with the migration default
`max_retries = 5`. -/
def addToRecoveryQueue (now correlationId : Nat) (od : OperationData)
    (retryCount : Nat) (err : Option String) (st : RecoveryState) : RecoveryState :=
  if st.queue.any (fun r => r.correlationId == correlationId) then
    { st with queue := st.queue.map (fun r =>
        if r.correlationId == correlationId then
          { r with retryCount := retryCount, nextRetryAt := nextRetryTime now retryCount,
                   lastError := err, status := "PENDING" }
        else r) }
  else
    let fresh : RecoveryRow :=
      { correlationId := correlationId, operationType := od.operationType,
        operationData := od, retryCount := retryCount, maxRetries := 5,
        nextRetryAt := nextRetryTime now retryCount, lastError := err,
        status := "PENDING" }
    { st with queue := st.queue ++ [fresh] }

/-- `updateTransactionState` restricted to the `current_state` column. -/
def updateTransactionState (correlationId : Nat) (newState : String)
    (st : RecoveryState) : RecoveryState :=
  { st with sagaState := Function.update st.sagaState correlationId newState }

/-- The DLQ row `moveToDLQ` inserts (`last_error` comes from
`operationData.lastError`, absent for these payloads; the compensation
status is `PENDING` exactly when compensation is required). -/
def mkDlqRow (correlationId : Nat) (od : OperationData) (failureReason : String)
    (retryCount : Nat) (requiresCompensation : Bool) : DlqRow :=
  { correlationId := correlationId, operationType := od.operationType,
    operationData := od, failureReason := failureReason, retryCount := retryCount,
    lastError := none, requiresCompensation := requiresCompensation,
    compensationStatus := if requiresCompensation then some "PENDING" else none }

/-- `moveToDLQ`: insert the DLQ row, advance the saga to `DLQ`, delete
the recovery-queue row for the correlation id. -/
def moveToDLQ (correlationId : Nat) (od : OperationData) (failureReason : String)
    (retryCount : Nat) (requiresCompensation : Bool) (st : RecoveryState) : RecoveryState :=
  let st1 := { st with
    dlq := st.dlq ++ [mkDlqRow correlationId od failureReason retryCount requiresCompensation] }
  let st2 := updateTransactionState correlationId "DLQ" st1
  { st2 with queue := st2.queue.filter (fun r => r.correlationId ≠ correlationId) }

/-- The `catch` branch of `processRecoveryQueue` for a failed retry of
`op`: increment the retry count; at or above `max_retries` promote to the
DLQ (compensation decided by `shouldCompensate`), otherwise re-enqueue
with the new backoff. -/
def handleRetryFailure (now : Nat) (op : RecoveryRow) (errMsg : String)
    (st : RecoveryState) : RecoveryState :=
  let newRetryCount := op.retryCount + 1
  if op.maxRetries ≤ newRetryCount then
    moveToDLQ op.correlationId op.operationData
      ("Max retries (" ++ toString op.maxRetries ++ ") exceeded")
      newRetryCount (shouldCompensate op.operationData) st
  else
    addToRecoveryQueue now op.correlationId op.operationData newRetryCount (some errMsg) st

end Recovery

namespace Reconciliation

/-- The values the `reconciliation_logs.discrepancy_type` CHECK constraint
admits, from the `CREATE TABLE reconciliation_logs` migration. -/
def allowedDiscrepancyTypes : List String :=
  ["none", "amount_mismatch", "status_mismatch", "missing_chain", "missing_db"]

/-- A `reconciliation_logs` row restricted to the columns the claim is
about. -/
structure LogRow where
  invoiceId : Nat
  discrepancyType : String
deriving DecidableEq, Repr

/-- `INSERT INTO reconciliation_logs`: the store accepts the row only if
its `discrepancy_type` satisfies the CHECK constraint. -/
def insertLog (logs : List LogRow) (row : LogRow) : Option (List LogRow) :=
  if allowedDiscrepancyTypes.contains row.discrepancyType then some (logs ++ [row])
  else none

/-- Outcome of processing one invoice inside `runReconciliation`'s inner
`try` block: either the block completes and logs a row with the computed
discrepancy type, or it throws. -/
inductive InvoiceStep where
  | ok (invoiceId : Nat) (discrepancyType : String)
  | throws (invoiceId : Nat)
deriving DecidableEq, Repr

/-- Result of a reconciliation run: the summary `status` column and the
log rows written. -/
structure RunResult where
  status : String
  logs : List LogRow
deriving DecidableEq, Repr

/-- The per-invoice loop of `runReconciliation`: the `ok` path inserts the
computed row; a `throws` invoice is handled by the inner `catch`, which
inserts a row with `discrepancy_type = 'error'`; any store rejection
escapes to the outer `catch`, which marks the summary `failed`. -/
def runLoop : List InvoiceStep → List LogRow → RunResult
  | [], logs => { status := "completed", logs := logs }
  | .ok id dt :: rest, logs =>
      match insertLog logs { invoiceId := id, discrepancyType := dt } with
      | some logs1 => runLoop rest logs1
      | none => { status := "failed", logs := logs }
  | .throws id :: rest, logs =>
      match insertLog logs { invoiceId := id, discrepancyType := "error" } with
      | some logs1 => runLoop rest logs1
      | none => { status := "failed", logs := logs }

/-- `runReconciliation` over a batch of invoice outcomes. -/
def runReconciliation (invoices : List InvoiceStep) : RunResult :=
  runLoop invoices []

end Reconciliation

namespace InvoiceId

/-- ethers v6 `zeroPadValue(data, length)`: pads the byte string with zero
bytes on the LEFT up to `length` bytes; throws when the data is longer
than `length`. -/
def zeroPadValue (data : List Nat) (length : Nat) : Option (List Nat) :=
  if data.length ≤ length then some (List.replicate (length - data.length) 0 ++ data)
  else none

/-- `uuidToBytes32` of `recoveryService.js` (and the identical copies in
the controllers): strip the dashes — yielding the UUID's 16 bytes — and
`zeroPadValue` to 32 bytes.  The UUID is modelled as its byte list. -/
def uuidToBytes32 (uuid : List Nat) : Option (List Nat) :=
  zeroPadValue uuid 32

/-- Modelled from the spec's words, for comparison with `uuidToBytes32`:
"the UUID's 16 bytes copied left-aligned, trailing 16 bytes zero". -/
def specLeftAlignedKey (uuid : List Nat) : List Nat :=
  uuid ++ List.replicate 16 0

/-- Reverse decoding matching the actual encoding: the UUID occupies the
trailing 16 bytes of the key. -/
def uuidFromBytes32 (key : List Nat) : List Nat :=
  key.drop 16

end InvoiceId

/-! ### Concrete executions used to evaluate the claims -/

/-- A full happy-path run against a fresh deployment (fee 50 bps, minimum
200): the admin creates escrow `10` for seller `2` / buyer `3` over 1000
units of the ERC20 token at address `6` (`feeAmount = 1000 * 50 / 10000
= 5`), the buyer deposits (the token pull succeeds), the seller confirms,
then the buyer confirms.  The result is the storage and the value
transfers of the final call. -/
def releaseScenario : Option (ContractState × List Transfer) :=
  (createEscrow 1 0 10 2 3 1000 6 100 0 0 (initialState 1)).bind (fun s1 =>
    (deposit 3 10 0 10 s1).bind (fun s2 =>
      (confirmRelease 2 20 10 s2).bind (fun r3 =>
        confirmRelease 3 30 10 r3.1)))

/-- A disputed escrow reached from a fresh deployment: after creation and
deposit, the buyer raises a dispute with 3 registered arbitrators. -/
def disputeScenario : Option ContractState :=
  (createEscrow 1 0 10 2 3 1000 0 100 0 0 (initialState 1)).bind (fun s1 =>
    (deposit 3 10 1000 10 s1).bind (fun s2 =>
      raiseDispute 3 10 3 s2))

/-- The disputed state of `disputeScenario`, extracted (the scenario
succeeds, so the default is never used). -/
def disputedState : ContractState := disputeScenario.getD (initialState 1)

/-- A sample 16-byte UUID (first byte `0x12`, the rest zero). -/
def sampleUuid : List Nat := 18 :: List.replicate 15 0

/-- Modelled from the spec's words, for comparison with `quorumRequired`:
"quorum = `⌈snapshot × quorum_pct / 100⌉`, minimum 1". -/
def specQuorumCeil (snapshot pct : Nat) : Nat :=
  max ((snapshot * pct + 99) / 100) 1

/-- Invariant: every escrow slot has zero `discountRate` and zero
`discountDeadline`. -/
def NoDiscount (s : ContractState) : Prop :=
  ∀ id, (s.escrows id).discountRate = 0 ∧ (s.escrows id).discountDeadline = 0

/-- Invariant: with a positive fee, `minimumEscrowAmount` is at least the
fee-derived minimum `⌈10000 / feePercentage⌉`. -/
def MinCoversFee (s : ContractState) : Prop :=
  0 < s.feePercentage →
    (10000 + s.feePercentage - 1) / s.feePercentage ≤ s.minimumEscrowAmount

/-! ### Claims -/

/-- C1. In the happy-path release of an ERC20 escrow (both parties
confirmed), the executed value transfers are exactly one transfer of the
full 1000 to the seller `2`; the escrow's recorded `feeAmount` is `5 > 0`
and the treasury `1` receives nothing — the code never pays the fee on
this path, contradicting the claim's "fee transferred to the treasury
first whenever `fee_amount > 0`". -/
theorem claim_C1_release_skips_fee :
    releaseScenario.map (fun r => (r.2, (r.1.escrows 10).feeAmount, r.1.treasury))
      = some ([{ recipient := 2, amount := 1000 }], 5, 1) := by
  decide

/-- C2. After both parties confirmed the ERC20 escrow and the release
executed (a non-empty transfer list), the escrow slot for invoice `10`
still holds `seller = 2` with status `Funded`: the record is neither
marked `Released` nor deleted, contradicting the claim. -/
theorem claim_C2_release_not_terminal :
    releaseScenario.map
        (fun r => ((r.1.escrows 10).status, (r.1.escrows 10).seller, r.2.isEmpty))
      = some (EscrowStatus.Funded, 2, false) := by
  decide

/-- C4 counterexample. For the concrete UUID `0x12 00 … 00`, the encoded
key produced by `uuidToBytes32` (ethers `zeroPadValue`, which pads on the
left) is not the left-aligned key the claim describes. -/
theorem claim_C4_left_aligned_refuted :
    InvoiceId.uuidToBytes32 sampleUuid ≠ some (InvoiceId.specLeftAlignedKey sampleUuid) := by
  decide

/-- C4 amended. The encoding copies the UUID's 16 bytes right-aligned
(leading 16 bytes zero), and decoding that takes the trailing 16 bytes
recovers the original UUID. -/
theorem claim_C4_right_aligned (u : List Nat) (h : u.length = 16) :
    InvoiceId.uuidToBytes32 u = some (List.replicate 16 0 ++ u)
    ∧ (InvoiceId.uuidToBytes32 u).map InvoiceId.uuidFromBytes32 = some u := by
  have henc : InvoiceId.uuidToBytes32 u = some (List.replicate 16 0 ++ u) := by
    unfold InvoiceId.uuidToBytes32 InvoiceId.zeroPadValue
    rw [h]
    norm_num
  refine ⟨henc, ?_⟩
  rw [henc]
  have hdrop : (List.replicate 16 0 ++ u).drop 16 = u := by
    have h16 : (List.replicate (16 : Nat) (0 : Nat)).length = 16 := by simp
    calc (List.replicate 16 0 ++ u).drop 16
        = (List.replicate 16 0 ++ u).drop (List.replicate (16 : Nat) (0 : Nat)).length := by
          rw [h16]
      _ = u := List.drop_left _ _
  simp [InvoiceId.uuidFromBytes32, hdrop]

/-- C4 witness: the amended statement at the sample UUID. -/
theorem claim_C4_right_aligned_witness :
    InvoiceId.uuidToBytes32 sampleUuid = some (List.replicate 16 0 ++ sampleUuid)
    ∧ (InvoiceId.uuidToBytes32 sampleUuid).map InvoiceId.uuidFromBytes32 = some sampleUuid :=
  claim_C4_right_aligned sampleUuid (by decide)

/-- C7. Every row (re-)enqueued by `addToRecoveryQueue` with retry count
`r` gets `next_retry_at = now + min(2^r, 60) minutes`; the backoff in
minutes always lies in `[1, 60]` and is monotone in `r`. -/
theorem claim_C7_backoff_bounds (now correlationId : Nat) (od : Recovery.OperationData)
    (r : Nat) (err : Option String) (st : Recovery.RecoveryState) :
    (∀ row ∈ (Recovery.addToRecoveryQueue now correlationId od r err st).queue,
        row.correlationId = correlationId →
          row.nextRetryAt = now + min (2 ^ r) 60 * 60 * 1000)
    ∧ 1 ≤ Recovery.backoffMinutes r ∧ Recovery.backoffMinutes r ≤ 60
    ∧ ∀ r2, r ≤ r2 → Recovery.backoffMinutes r ≤ Recovery.backoffMinutes r2 := by
  refine ⟨?_, ?_, ?_, ?_⟩
  · intro row hmem hcid
    unfold Recovery.addToRecoveryQueue at hmem
    split at hmem
    case isTrue hany =>
      simp only [List.mem_map] at hmem
      obtain ⟨r0, _, heq⟩ := hmem
      by_cases hr0 : r0.correlationId == correlationId
      · rw [if_pos hr0] at heq
        rw [← heq]
        rfl
      · rw [if_neg hr0] at heq
        rw [← heq] at hcid
        exact absurd (by simp [hcid]) hr0
    case isFalse hany =>
      simp only [List.mem_append, List.mem_singleton] at hmem
      rcases hmem with hold | hfresh
      · exfalso
        apply hany
        exact List.any_eq_true.mpr ⟨row, hold, by simp [hcid]⟩
      · rw [hfresh]
        rfl
  · exact le_min Nat.one_le_two_pow (by norm_num)
  · exact min_le_right _ _
  · intro r2 h
    exact min_le_min (Nat.pow_le_pow_right (by norm_num) h) le_rfl

/-- C7 witness: the theorem instantiated at a fresh enqueue with
`retry_count = 3` into an empty queue, and at the pair `3 ≤ 9`. -/
theorem claim_C7_backoff_bounds_witness :
    1 ≤ Recovery.backoffMinutes 3 ∧ Recovery.backoffMinutes 3 ≤ 60
    ∧ Recovery.backoffMinutes 3 ≤ Recovery.backoffMinutes 9 :=
  let st0 : Recovery.RecoveryState := { queue := [], dlq := [], sagaState := fun _ => "PENDING" }
  let h := claim_C7_backoff_bounds 1000 7 { operationType := "ESCROW_RELEASE", stepsCompleted := [] } 3 none st0
  ⟨h.2.1, h.2.2.1, h.2.2.2 9 (by norm_num)⟩

/-- Helper: `_resolveEscrow` succeeds whenever the escrow is disputed and
its fee does not exceed its amount. -/
theorem resolveEscrow_isSome (sender invoiceId : Nat) (w : Bool) (s : ContractState)
    (hd : (s.escrows invoiceId).status = .Disputed)
    (hfee : (s.escrows invoiceId).feeAmount ≤ (s.escrows invoiceId).amount) :
    ∃ s' ts, resolveEscrow sender invoiceId w s = some (s', ts) := by
  unfold resolveEscrow
  dsimp only
  rw [if_pos hd]
  by_cases hf : 0 < (s.escrows invoiceId).feeAmount
  · rw [if_pos hf, if_pos hfee]
    exact ⟨_, _, rfl⟩
  · rw [if_neg hf]
    exact ⟨_, _, rfl⟩

/-- Helper: a mapped option being `some` forces the underlying option to
be `some`. -/
theorem exists_of_isSome_map {α β : Type} {f : α → β} {x : Option α}
    (h : (x.map f).isSome = true) : ∃ a, x = some a := by
  cases x
  · simp at h
  · exact ⟨_, rfl⟩

/-- Helper: `_resolveEscrow` never touches the `disputeVotings` mapping. -/
theorem resolveEscrow_disputeVotings {sender invoiceId : Nat} {w : Bool}
    {s s' : ContractState} {ts : List Transfer}
    (h : resolveEscrow sender invoiceId w s = some (s', ts)) :
    s'.disputeVotings = s.disputeVotings := by
  unfold resolveEscrow at h
  dsimp only at h
  split at h
  · split at h
    · split at h
      · simp only [Option.some.injEq, Prod.mk.injEq] at h
        rw [← h.1]
      · exact absurd h (by simp)
    · simp only [Option.some.injEq, Prod.mk.injEq] at h
      rw [← h.1]
  · exact absurd h (by simp)

/-- Helper: `_checkAndResolveVoting` never changes the recorded vote
tallies for the invoice. -/
theorem checkAndResolveVoting_votes {sender invoiceId : Nat} {s s' : ContractState}
    {ts : List Transfer} {res : Option Bool}
    (h : checkAndResolveVoting sender invoiceId s = some (s', ts, res)) :
    (s'.disputeVotings invoiceId).votesForBuyer = (s.disputeVotings invoiceId).votesForBuyer
    ∧ (s'.disputeVotings invoiceId).votesForSeller = (s.disputeVotings invoiceId).votesForSeller := by
  unfold checkAndResolveVoting at h
  dsimp only at h
  split at h
  · simp only [Option.some.injEq, Prod.mk.injEq] at h
    rw [← h.1]
    exact ⟨rfl, rfl⟩
  · split at h
    · rw [Option.map_eq_some'] at h
      obtain ⟨⟨s1, ts1⟩, hres, heq⟩ := h
      simp only [Prod.mk.injEq] at heq
      have hv := resolveEscrow_disputeVotings hres
      rw [← heq.1, hv]
      simp [Function.update]
    · simp only [Option.some.injEq, Prod.mk.injEq] at h
      rw [← h.1]
      exact ⟨rfl, rfl⟩

/-- C3 counterexample. With a snapshot of 3 arbitrators and the default
51% quorum, the code requires `⌊3 × 51 / 100⌋ = 1` vote while the claim's
ceiling formula requires `⌈3 × 51 / 100⌉ = 2`. -/
theorem claim_C3_ceiling_refuted :
    quorumRequired 3 51 = 1 ∧ specQuorumCeil 3 51 = 2
    ∧ quorumRequired 3 51 ≠ specQuorumCeil 3 51 := by
  decide

/-- C3 amended. The quorum threshold is the floor
`⌊snapshot × quorum_pct / 100⌋` with a minimum of 1 (not the ceiling);
the dispute resolves exactly when the total vote count reaches that
threshold, the seller winning only on a strict majority of seller votes
(a tie resolving for the buyer). -/
theorem claim_C3_quorum_floor (snapshot pct sender invoiceId : Nat) (s : ContractState)
    (hd : (s.escrows invoiceId).status = .Disputed)
    (hfee : (s.escrows invoiceId).feeAmount ≤ (s.escrows invoiceId).amount)
    (hnr : (s.disputeVotings invoiceId).resolved = false) :
    quorumRequired snapshot pct = max (snapshot * pct / 100) 1
    ∧ (checkAndResolveVoting sender invoiceId s).map (fun r => r.2.2)
      = some (if quorumRequired (s.disputeVotings invoiceId).snapshotArbitratorCount s.quorumPercentage
                  ≤ (s.disputeVotings invoiceId).votesForBuyer + (s.disputeVotings invoiceId).votesForSeller
              then some (decide ((s.disputeVotings invoiceId).votesForBuyer
                  < (s.disputeVotings invoiceId).votesForSeller))
              else none) := by
  constructor
  · unfold quorumRequired
    dsimp only
    split <;> omega
  · unfold checkAndResolveVoting
    dsimp only
    rw [if_neg (by simp [hnr])]
    by_cases hq : quorumRequired (s.disputeVotings invoiceId).snapshotArbitratorCount s.quorumPercentage
        ≤ (s.disputeVotings invoiceId).votesForBuyer + (s.disputeVotings invoiceId).votesForSeller
    · rw [if_pos hq, if_pos hq]
      obtain ⟨s', ts, hres⟩ := resolveEscrow_isSome sender invoiceId (decide ((s.disputeVotings invoiceId).votesForBuyer < (s.disputeVotings invoiceId).votesForSeller)) { s with disputeVotings := Function.update s.disputeVotings invoiceId ({ s.disputeVotings invoiceId with resolved := true }) } hd hfee
      rw [hres]
      rfl
    · rw [if_neg hq, if_neg hq]
      rfl

/-- C3 witness: the amended statement at the freshly disputed scenario
state (snapshot 3, quorum 51%, no votes yet: threshold 1, total 0, no
resolution). -/
theorem claim_C3_quorum_floor_witness :
    quorumRequired 3 51 = max (3 * 51 / 100) 1
    ∧ (checkAndResolveVoting 1 10 disputedState).map (fun r => r.2.2)
      = some (if quorumRequired (disputedState.disputeVotings 10).snapshotArbitratorCount disputedState.quorumPercentage
                  ≤ (disputedState.disputeVotings 10).votesForBuyer + (disputedState.disputeVotings 10).votesForSeller
              then some (decide ((disputedState.disputeVotings 10).votesForBuyer
                  < (disputedState.disputeVotings 10).votesForSeller))
              else none) :=
  claim_C3_quorum_floor 3 51 1 10 disputedState (by decide) (by decide) (by decide)

/-- C10. A successful `voteOnDispute` updates the tallies according to
`voteForBuyer` but emits the `ArbitratorVoted` event with the negated
flag `!voteForBuyer`. -/
theorem claim_C10_vote_event_negated (sender : Nat) (isArb : Bool) (live invoiceId : Nat)
    (vb : Bool) (s : ContractState)
    (h : (voteOnDispute sender isArb live invoiceId vb s).isSome = true) :
    (voteOnDispute sender isArb live invoiceId vb s).map
        (fun r => (r.2.1, (r.1.disputeVotings invoiceId).votesForBuyer,
          (r.1.disputeVotings invoiceId).votesForSeller))
      = some (⟨invoiceId, sender, !vb⟩,
          (if vb then (s.disputeVotings invoiceId).votesForBuyer + 1
           else (s.disputeVotings invoiceId).votesForBuyer),
          (if vb then (s.disputeVotings invoiceId).votesForSeller
           else (s.disputeVotings invoiceId).votesForSeller + 1)) := by
  unfold voteOnDispute at h ⊢
  dsimp only at h ⊢
  split at h
  case isFalse => simp at h
  case isTrue hArb =>
    rw [if_pos hArb]
    split at h
    case isFalse => simp at h
    case isTrue hst =>
      rw [if_pos hst]
      split at h
      case isFalse => simp at h
      case isTrue hguard =>
        rw [if_pos hguard]
        obtain ⟨⟨s', ts, res⟩, hcr⟩ := exists_of_isSome_map h
        rw [hcr]
        have hv := checkAndResolveVoting_votes hcr
        simp only [Function.update_same] at hv
        simp only [Option.map_map, Option.map_some', Option.some.injEq, Prod.mk.injEq,
          Function.comp]
        refine ⟨trivial, ?_, ?_⟩
        · rw [hv.1]
          by_cases hl : live < (s.disputeVotings invoiceId).snapshotArbitratorCount <;>
            cases vb <;> simp [hl]
        · rw [hv.2]
          by_cases hl : live < (s.disputeVotings invoiceId).snapshotArbitratorCount <;>
            cases vb <;> simp [hl]

/-- C10 witness: an arbitrator vote for the buyer on the disputed
scenario state. -/
theorem claim_C10_vote_event_negated_witness :
    (voteOnDispute 9 true 3 10 true disputedState).map
        (fun r => (r.2.1, (r.1.disputeVotings 10).votesForBuyer,
          (r.1.disputeVotings 10).votesForSeller))
      = some (⟨10, 9, !true⟩,
          (if true then (disputedState.disputeVotings 10).votesForBuyer + 1
           else (disputedState.disputeVotings 10).votesForBuyer),
          (if true then (disputedState.disputeVotings 10).votesForSeller
           else (disputedState.disputeVotings 10).votesForSeller + 1)) :=
  claim_C10_vote_event_negated 9 true 3 10 true disputedState (by decide)

/-- Helper: an invariant preserved by `step` holds along any
`ReachableFrom` chain. -/
theorem reachableFrom_invariant {P : ContractState → Prop}
    (hstep : ∀ (op : Op) (a b : ContractState), P a → step op a = some b → P b)
    {s t : ContractState} (h0 : P s) (h : ReachableFrom s t) : P t := by
  induction h with
  | refl => exact h0
  | tail op _ hst ih => exact hstep _ _ _ ih hst

/-- Helper: pointwise `NoDiscount` data survives a mapping update with a
discount-free escrow. -/
theorem noDiscount_update {s : ContractState} {invoiceId : Nat} {e : Escrow}
    (h : NoDiscount s) (he1 : e.discountRate = 0) (he2 : e.discountDeadline = 0) :
    ∀ i, ((Function.update s.escrows invoiceId e) i).discountRate = 0
      ∧ ((Function.update s.escrows invoiceId e) i).discountDeadline = 0 := by
  intro i
  rw [Function.update_apply]
  by_cases hi : i = invoiceId
  · simp [hi, he1, he2]
  · simp only [hi, if_false]
    exact h i

/-- Helper: `_resolveEscrow` preserves `NoDiscount` (it only writes the
zero struct back). -/
theorem resolveEscrow_noDiscount {sender invoiceId : Nat} {w : Bool} {s s' : ContractState}
    {ts : List Transfer} (h : NoDiscount s)
    (hr : resolveEscrow sender invoiceId w s = some (s', ts)) : NoDiscount s' := by
  unfold resolveEscrow at hr
  dsimp only at hr
  split at hr
  · split at hr
    · split at hr
      · simp only [Option.some.injEq, Prod.mk.injEq] at hr
        rw [← hr.1]
        exact noDiscount_update h rfl rfl
      · exact absurd hr (by simp)
    · simp only [Option.some.injEq, Prod.mk.injEq] at hr
      rw [← hr.1]
      exact noDiscount_update h rfl rfl
  · exact absurd hr (by simp)

/-- Helper: `_checkAndResolveVoting` preserves `NoDiscount`. -/
theorem checkAndResolveVoting_noDiscount {sender invoiceId : Nat} {s s' : ContractState}
    {ts : List Transfer} {res : Option Bool} (h : NoDiscount s)
    (hc : checkAndResolveVoting sender invoiceId s = some (s', ts, res)) : NoDiscount s' := by
  unfold checkAndResolveVoting at hc
  dsimp only at hc
  split at hc
  · simp only [Option.some.injEq, Prod.mk.injEq] at hc
    rw [← hc.1]
    exact h
  · split at hc
    · rw [Option.map_eq_some'] at hc
      obtain ⟨⟨s1, ts1⟩, hres, heq⟩ := hc
      simp only [Prod.mk.injEq] at heq
      rw [← heq.1]
      refine resolveEscrow_noDiscount ?_ hres
      exact h
    · simp only [Option.some.injEq, Prod.mk.injEq] at hc
      rw [← hc.1]
      exact h

/-- Helper: every contract operation preserves `NoDiscount`: no operation
ever writes a nonzero `discountRate` or `discountDeadline`. -/
theorem step_noDiscount {op : Op} {s s' : ContractState}
    (h : NoDiscount s) (hs : step op s = some s') : NoDiscount s' := by
  cases op with
  | setTreasury sender t =>
    simp only [step, setTreasury] at hs
    split at hs
    · simp only [Option.some.injEq] at hs
      rw [← hs]; exact h
    · exact absurd hs (by simp)
  | setFeePercentage sender f =>
    simp only [step, setFeePercentage] at hs
    repeat' split at hs
    all_goals first
      | (simp only [Option.some.injEq] at hs; rw [← hs]; exact h)
      | exact Option.noConfusion hs
  | setMinimumEscrowAmount sender m =>
    simp only [step, setMinimumEscrowAmount] at hs
    repeat' split at hs
    all_goals first
      | (simp only [Option.some.injEq] at hs; rw [← hs]; exact h)
      | exact Option.noConfusion hs
  | updateQuorumPercentage sender p =>
    simp only [step, updateQuorumPercentage] at hs
    split at hs
    · simp only [Option.some.injEq] at hs
      rw [← hs]; exact h
    · exact absurd hs (by simp)
  | createEscrow sender now invoiceId seller buyer amount token duration nft tokenId =>
    simp only [step, createEscrow] at hs
    split at hs
    · simp only [Option.some.injEq] at hs
      rw [← hs]
      exact noDiscount_update h rfl rfl
    · exact absurd hs (by simp)
  | deposit sender now msgValue invoiceId =>
    simp only [step, deposit] at hs
    split at hs
    · split at hs
      · simp only [Option.some.injEq] at hs
        rw [← hs]
        exact noDiscount_update h (h invoiceId).1 (h invoiceId).2
      · exact absurd hs (by simp)
    · exact absurd hs (by simp)
  | confirmRelease sender now invoiceId =>
    simp only [step] at hs
    rw [Option.map_eq_some'] at hs
    obtain ⟨⟨s1, ts⟩, h1, h2⟩ := hs
    rw [← h2]
    unfold confirmRelease releaseFunds at h1
    dsimp only at h1
    repeat' split at h1
    all_goals first
      | (simp only [Option.map_some', Option.some.injEq, Prod.mk.injEq] at h1
         rw [← h1.1]
         exact noDiscount_update h (h invoiceId).1 (h invoiceId).2)
      | (simp only [Option.map_none'] at h1; exact Option.noConfusion h1)
      | exact Option.noConfusion h1
  | reclaimExpiredFunds sender now invoiceId =>
    simp only [step] at hs
    rw [Option.map_eq_some'] at hs
    obtain ⟨⟨s1, ts⟩, h1, h2⟩ := hs
    rw [← h2]
    unfold reclaimExpiredFunds at h1
    dsimp only at h1
    split at h1
    · simp only [Option.some.injEq, Prod.mk.injEq] at h1
      rw [← h1.1]
      exact noDiscount_update h (h invoiceId).1 (h invoiceId).2
    · exact absurd h1 (by simp)
  | raiseDispute sender invoiceId arbitratorCount =>
    simp only [step, raiseDispute] at hs
    split at hs
    · simp only [Option.some.injEq] at hs
      rw [← hs]
      exact noDiscount_update h (h invoiceId).1 (h invoiceId).2
    · exact absurd hs (by simp)
  | resolveDispute sender invoiceId w =>
    simp only [step] at hs
    rw [Option.map_eq_some'] at hs
    obtain ⟨⟨s1, ts⟩, h1, h2⟩ := hs
    rw [← h2]
    unfold resolveDispute at h1
    dsimp only at h1
    split at h1
    · exact resolveEscrow_noDiscount h h1
    · exact absurd h1 (by simp)
  | voteOnDispute sender isArb live invoiceId vb =>
    simp only [step] at hs
    rw [Option.map_eq_some'] at hs
    obtain ⟨r, h1, h2⟩ := hs
    rw [← h2]
    unfold voteOnDispute at h1
    dsimp only at h1
    split at h1
    · split at h1
      · split at h1
        · rw [Option.map_eq_some'] at h1
          obtain ⟨⟨s2, ts2, res2⟩, hcr, hr⟩ := h1
          rw [← hr]
          refine checkAndResolveVoting_noDiscount ?_ hcr
          exact h
        · exact absurd h1 (by simp)
      · exact absurd h1 (by simp)
    · exact absurd h1 (by simp)
  | safeEscape sender live invoiceId w =>
    simp only [step] at hs
    rw [Option.map_eq_some'] at hs
    obtain ⟨⟨s1, ts⟩, h1, h2⟩ := hs
    rw [← h2]
    unfold safeEscape at h1
    dsimp only at h1
    split at h1
    · split at h1
      · refine resolveEscrow_noDiscount ?_ h1
        exact h
      · exact absurd h1 (by simp)
    · exact absurd h1 (by simp)

/-- Helper: `_resolveEscrow` leaves the fee configuration unchanged. -/
theorem resolveEscrow_minCoversFee {sender invoiceId : Nat} {w : Bool} {s s' : ContractState}
    {ts : List Transfer} (h : MinCoversFee s)
    (hr : resolveEscrow sender invoiceId w s = some (s', ts)) : MinCoversFee s' := by
  unfold resolveEscrow at hr
  dsimp only at hr
  split at hr
  · split at hr
    · split at hr
      · simp only [Option.some.injEq, Prod.mk.injEq] at hr
        rw [← hr.1]
        exact h
      · exact absurd hr (by simp)
    · simp only [Option.some.injEq, Prod.mk.injEq] at hr
      rw [← hr.1]
      exact h
  · exact absurd hr (by simp)

/-- Helper: `_checkAndResolveVoting` leaves the fee configuration
unchanged. -/
theorem checkAndResolveVoting_minCoversFee {sender invoiceId : Nat} {s s' : ContractState}
    {ts : List Transfer} {res : Option Bool} (h : MinCoversFee s)
    (hc : checkAndResolveVoting sender invoiceId s = some (s', ts, res)) : MinCoversFee s' := by
  unfold checkAndResolveVoting at hc
  dsimp only at hc
  split at hc
  · simp only [Option.some.injEq, Prod.mk.injEq] at hc
    rw [← hc.1]
    exact h
  · split at hc
    · rw [Option.map_eq_some'] at hc
      obtain ⟨⟨s1, ts1⟩, hres, heq⟩ := hc
      simp only [Prod.mk.injEq] at heq
      rw [← heq.1]
      refine resolveEscrow_minCoversFee ?_ hres
      exact h
    · simp only [Option.some.injEq, Prod.mk.injEq] at hc
      rw [← hc.1]
      exact h

/-- Helper: every contract operation preserves `MinCoversFee`.
`setFeePercentage` re-establishes it and `setMinimumEscrowAmount` only
accepts minimums above the fee-derived bound; no other operation touches
the fee configuration. -/
theorem step_minCoversFee {op : Op} {s s' : ContractState}
    (h : MinCoversFee s) (hs : step op s = some s') : MinCoversFee s' := by
  cases op with
  | setTreasury sender t =>
    simp only [step, setTreasury] at hs
    split at hs
    · simp only [Option.some.injEq] at hs
      rw [← hs]; exact h
    · exact absurd hs (by simp)
  | setFeePercentage sender f =>
    simp only [step, setFeePercentage] at hs
    repeat' split at hs
    all_goals first
      | (simp only [Option.some.injEq] at hs; rw [← hs]; intro hpos; exact le_rfl)
      | (rename_i hcond hnotf
         simp only [Option.some.injEq] at hs
         rw [← hs]; intro hpos; exact absurd hpos hnotf)
      | exact Option.noConfusion hs
  | setMinimumEscrowAmount sender m =>
    simp only [step, setMinimumEscrowAmount] at hs
    repeat' split at hs
    all_goals first
      | (rename_i hposFee hcond
         simp only [Option.some.injEq] at hs
         rw [← hs]; intro hpos; exact hcond.2.2)
      | (rename_i hposFee hcond
         simp only [Option.some.injEq] at hs
         rw [← hs]; intro hpos; exact absurd hpos hposFee)
      | exact Option.noConfusion hs
  | updateQuorumPercentage sender p =>
    simp only [step, updateQuorumPercentage] at hs
    split at hs
    · simp only [Option.some.injEq] at hs
      rw [← hs]; exact h
    · exact absurd hs (by simp)
  | createEscrow sender now invoiceId seller buyer amount token duration nft tokenId =>
    simp only [step, createEscrow] at hs
    split at hs
    · simp only [Option.some.injEq] at hs
      rw [← hs]; exact h
    · exact absurd hs (by simp)
  | deposit sender now msgValue invoiceId =>
    simp only [step, deposit] at hs
    split at hs
    · split at hs
      · simp only [Option.some.injEq] at hs
        rw [← hs]; exact h
      · exact absurd hs (by simp)
    · exact absurd hs (by simp)
  | confirmRelease sender now invoiceId =>
    simp only [step] at hs
    rw [Option.map_eq_some'] at hs
    obtain ⟨⟨s1, ts⟩, h1, h2⟩ := hs
    rw [← h2]
    unfold confirmRelease releaseFunds at h1
    dsimp only at h1
    repeat' split at h1
    all_goals first
      | (simp only [Option.map_some', Option.some.injEq, Prod.mk.injEq] at h1
         rw [← h1.1]
         exact h)
      | (simp only [Option.map_none'] at h1; exact Option.noConfusion h1)
      | exact Option.noConfusion h1
  | reclaimExpiredFunds sender now invoiceId =>
    simp only [step] at hs
    rw [Option.map_eq_some'] at hs
    obtain ⟨⟨s1, ts⟩, h1, h2⟩ := hs
    rw [← h2]
    unfold reclaimExpiredFunds at h1
    dsimp only at h1
    split at h1
    · simp only [Option.some.injEq, Prod.mk.injEq] at h1
      rw [← h1.1]
      exact h
    · exact absurd h1 (by simp)
  | raiseDispute sender invoiceId arbitratorCount =>
    simp only [step, raiseDispute] at hs
    split at hs
    · simp only [Option.some.injEq] at hs
      rw [← hs]; exact h
    · exact absurd hs (by simp)
  | resolveDispute sender invoiceId w =>
    simp only [step] at hs
    rw [Option.map_eq_some'] at hs
    obtain ⟨⟨s1, ts⟩, h1, h2⟩ := hs
    rw [← h2]
    unfold resolveDispute at h1
    dsimp only at h1
    split at h1
    · exact resolveEscrow_minCoversFee h h1
    · exact absurd h1 (by simp)
  | voteOnDispute sender isArb live invoiceId vb =>
    simp only [step] at hs
    rw [Option.map_eq_some'] at hs
    obtain ⟨r, h1, h2⟩ := hs
    rw [← h2]
    unfold voteOnDispute at h1
    dsimp only at h1
    split at h1
    · split at h1
      · split at h1
        · rw [Option.map_eq_some'] at h1
          obtain ⟨⟨s2, ts2, res2⟩, hcr, hr⟩ := h1
          rw [← hr]
          refine checkAndResolveVoting_minCoversFee ?_ hcr
          exact h
        · exact absurd h1 (by simp)
      · exact absurd h1 (by simp)
    · exact absurd h1 (by simp)
  | safeEscape sender live invoiceId w =>
    simp only [step] at hs
    rw [Option.map_eq_some'] at hs
    obtain ⟨⟨s1, ts⟩, h1, h2⟩ := hs
    rw [← h2]
    unfold safeEscape at h1
    dsimp only at h1
    split at h1
    · split at h1
      · refine resolveEscrow_minCoversFee ?_ h1
        exact h
      · exact absurd h1 (by simp)
    · exact absurd h1 (by simp)

/-- C9. In every reachable contract state, every escrow slot has
`discountRate = 0` and `discountDeadline = 0` (no operation ever sets
them to a nonzero value), so `_getPayableAmount` always returns the full
escrow amount: the discounted branch of `deposit` is unreachable. -/
theorem claim_C9_no_discount (s : ContractState) (h : Reachable s) :
    (∀ id, (s.escrows id).discountRate = 0 ∧ (s.escrows id).discountDeadline = 0)
    ∧ ∀ id now, getPayableAmount now (s.escrows id) = (s.escrows id).amount := by
  obtain ⟨d, s0, hs0, hre⟩ := h
  subst hs0
  have hnd : NoDiscount s :=
    reachableFrom_invariant (fun op a b hP hsp => step_noDiscount hP hsp)
      (fun i => ⟨rfl, rfl⟩) hre
  refine ⟨hnd, ?_⟩
  intro id now
  unfold getPayableAmount
  rw [if_neg (by simp [(hnd id).1])]

/-- C9 witness: the freshly deployed state. -/
theorem claim_C9_no_discount_witness :
    (((initialState 0).escrows 5).discountRate = 0
      ∧ ((initialState 0).escrows 5).discountDeadline = 0)
    ∧ getPayableAmount 7 ((initialState 0).escrows 5) = ((initialState 0).escrows 5).amount :=
  ⟨(claim_C9_no_discount (initialState 0) ⟨0, _, rfl, ReachableFrom.refl _⟩).1 5,
   (claim_C9_no_discount (initialState 0) ⟨0, _, rfl, ReachableFrom.refl _⟩).2 5 7⟩

/-- C5. After `setFeePercentage` set a positive fee `f`, every escrow a
later reachable state accepts via `createEscrow` has
`amount ≥ ⌈10000 / f⌉` and a computed fee `⌊amount * f / 10000⌋ ≥ 1`. -/
theorem claim_C5_min_amount_fee (sender f : Nat) (s0 : ContractState)
    {s1 s : ContractState}
    (sender2 now invoiceId seller buyer amount token duration nft tokenId : Nat)
    (hf : 0 < f)
    (hset : setFeePercentage sender f s0 = some s1)
    (hre : ReachableFrom s1 s)
    (hfee : s.feePercentage = f)
    (hacc : (createEscrow sender2 now invoiceId seller buyer amount token duration
        nft tokenId s).isSome = true) :
    (10000 + f - 1) / f ≤ amount ∧ 1 ≤ amount * f / 10000 := by
  have h1 : MinCoversFee s1 := by
    unfold setFeePercentage at hset
    repeat' split at hset
    all_goals first
      | (simp only [Option.some.injEq] at hset; rw [← hset]; intro hpos; exact le_rfl)
      | (rename_i hcond hnotf
         simp only [Option.some.injEq] at hset
         rw [← hset]; intro hpos; exact absurd hpos hnotf)
      | exact Option.noConfusion hset
  have hMin : MinCoversFee s :=
    reachableFrom_invariant (fun op a b hP hsp => step_minCoversFee hP hsp) h1 hre
  unfold createEscrow at hacc
  dsimp only at hacc
  split at hacc
  case isFalse => simp at hacc
  case isTrue hcond =>
    obtain ⟨-, -, hmin, hfeepos⟩ := hcond
    constructor
    · calc (10000 + f - 1) / f
          = (10000 + s.feePercentage - 1) / s.feePercentage := by rw [hfee]
        _ ≤ s.minimumEscrowAmount := hMin (by rw [hfee]; exact hf)
        _ ≤ amount := hmin
    · rw [hfee] at hfeepos
      omega

/-- C5 witness: fee set to 100 bps on a fresh deployment (minimum becomes
100), then an escrow of amount 100 is accepted with fee 1. -/
theorem claim_C5_min_amount_fee_witness :
    (10000 + 100 - 1) / 100 ≤ 100 ∧ 1 ≤ 100 * 100 / 10000 :=
  claim_C5_min_amount_fee 0 100 (initialState 0) 0 0 10 2 3 100 0 50 0 0
    (by norm_num) rfl (ReachableFrom.refl _) rfl (by decide)

/-- C6. On a failed retry the retry count is incremented; at or above
`max_retries` the entry is promoted to the DLQ (DLQ row appended, saga
advanced to `DLQ`, recovery row deleted), otherwise it is re-enqueued as
`PENDING` with the new backoff. -/
theorem claim_C6_retry_promotion (now : Nat) (op : Recovery.RecoveryRow) (errMsg : String)
    (st : Recovery.RecoveryState) :
    (op.maxRetries ≤ op.retryCount + 1 →
      (Recovery.handleRetryFailure now op errMsg st).dlq
        = st.dlq ++ [Recovery.mkDlqRow op.correlationId op.operationData
            ("Max retries (" ++ toString op.maxRetries ++ ") exceeded")
            (op.retryCount + 1) (Recovery.shouldCompensate op.operationData)]
      ∧ (Recovery.handleRetryFailure now op errMsg st).sagaState op.correlationId = "DLQ"
      ∧ ∀ r ∈ (Recovery.handleRetryFailure now op errMsg st).queue,
          r.correlationId ≠ op.correlationId)
    ∧ (op.retryCount + 1 < op.maxRetries →
      (Recovery.handleRetryFailure now op errMsg st).dlq = st.dlq
      ∧ (Recovery.handleRetryFailure now op errMsg st).sagaState = st.sagaState
      ∧ ∃ r, r ∈ (Recovery.handleRetryFailure now op errMsg st).queue
          ∧ r.correlationId = op.correlationId ∧ r.retryCount = op.retryCount + 1
          ∧ r.status = "PENDING"
          ∧ r.nextRetryAt = Recovery.nextRetryTime now (op.retryCount + 1)) := by
  constructor
  · intro hge
    unfold Recovery.handleRetryFailure
    rw [if_pos hge]
    unfold Recovery.moveToDLQ Recovery.updateTransactionState
    refine ⟨rfl, by simp [Function.update], ?_⟩
    intro r hr
    simp only [List.mem_filter, decide_eq_true_eq] at hr
    exact hr.2
  · intro hlt
    unfold Recovery.handleRetryFailure
    rw [if_neg (by omega)]
    unfold Recovery.addToRecoveryQueue
    split
    case isTrue hany =>
      refine ⟨rfl, rfl, ?_⟩
      obtain ⟨r0, hr0mem, hr0⟩ := List.any_eq_true.mp hany
      simp only [beq_iff_eq] at hr0
      refine ⟨_, List.mem_map.mpr ⟨r0, hr0mem, rfl⟩, ?_⟩
      rw [if_pos (by simp [hr0])]
      exact ⟨hr0, rfl, rfl, rfl⟩
    case isFalse hany =>
      exact ⟨rfl, rfl, _, List.mem_append_right _ (List.mem_singleton.mpr rfl),
        rfl, rfl, rfl, rfl⟩

/-- C6 witness: an entry with `retry_count = 4` and `max_retries = 5`
fails once more and is promoted: its saga reaches state `DLQ`. -/
theorem claim_C6_retry_promotion_witness :
    (Recovery.handleRetryFailure 0
        { correlationId := 7, operationType := "ESCROW_RELEASE",
          operationData := { operationType := "ESCROW_RELEASE", stepsCompleted := ["BLOCKCHAIN_TX"] },
          retryCount := 4, maxRetries := 5, nextRetryAt := 0, lastError := none,
          status := "PROCESSING" }
        "boom"
        { queue := [], dlq := [], sagaState := fun _ => "PROCESSING" }).sagaState 7 = "DLQ" :=
  ((claim_C6_retry_promotion 0
      { correlationId := 7, operationType := "ESCROW_RELEASE",
        operationData := { operationType := "ESCROW_RELEASE", stepsCompleted := ["BLOCKCHAIN_TX"] },
        retryCount := 4, maxRetries := 5, nextRetryAt := 0, lastError := none,
        status := "PROCESSING" }
      "boom"
      { queue := [], dlq := [], sagaState := fun _ => "PROCESSING" }).1 (by norm_num)).2.1

/-- C8. The migration's CHECK constraint for
`reconciliation_logs.discrepancy_type` does not admit `'error'`, so the
error row the per-invoice `catch` tries to insert is rejected, the
exception escapes to the engine level, and a run containing one failing
invoice ends with summary status `failed` and no surviving log rows —
contradicting "log an `error` row and continue". -/
theorem claim_C8_error_row_rejected :
    (Reconciliation.runReconciliation [.throws 4, .ok 5 "none"]).status = "failed"
    ∧ (Reconciliation.runReconciliation [.throws 4, .ok 5 "none"]).logs = []
    ∧ Reconciliation.allowedDiscrepancyTypes.contains "error" = false := by
  refine ⟨rfl, rfl, rfl⟩

end FinovatePay
